import Mathlib

/-!
Verification of the curdling resolution engine and downloader against its
natural-language specification.

The definitions below are a shallow embedding of `src/curdling/maestro.py`
and `src/curdling/services/downloader.py`.  Python code that can raise is
embedded in an `Except Err` monad; machine iteration over the registry uses
an insertion-ordered association list, matching the order in which
`file_requirement` inserts entries.
-/

namespace Curdling

/-- Python exceptions that the embedded code can raise.  `typeError` stands
for `TypeError`/`AttributeError` on `None` (e.g. `None.split`),
`indexError` for `IndexError`, `keyError` for a missing dictionary key,
`valueError` for `ValueError`, `versionConflict` for
`curdling.exceptions.VersionConflict` and `reportableError` for
`curdling.exceptions.ReportableError`. -/
inductive Err where
  | typeError
  | indexError
  | keyError (key : String)
  | valueError (msg : String)
  | versionConflict (msg : String)
  | reportableError (msg : String)
deriving DecidableEq, Repr

/-! ### String utilities

Counterparts of the Python string operations the embedded code uses,
written as structural recursion over `List Char` so that every definition
in this development evaluates inside the kernel. -/

/-- Splitting worker: accumulate the current piece until the separator is
found as a prefix of the rest.  The `fuel` argument makes the recursion
structural; callers pass the length of the text, which the fuel never
undershoots because every step consumes at least one character. -/
def splitOnAuxL (sep : List Char) : Nat → List Char → List Char → List (List Char)
  | _, [], acc => [acc.reverse]
  | 0, l, acc => [acc.reverse ++ l]
  | fuel + 1, c :: rest, acc =>
    if sep.isEmpty then splitOnAuxL sep fuel rest (c :: acc)
    else if List.isPrefixOf sep (c :: rest) then
      acc.reverse :: splitOnAuxL sep fuel (rest.drop (sep.length - 1)) []
    else
      splitOnAuxL sep fuel rest (c :: acc)

/-- Python's `s.split(sep)` for a non-empty separator; an empty separator
returns the string whole. -/
def strSplitOn (s sep : String) : List String :=
  if sep.data.isEmpty then [s]
  else (splitOnAuxL sep.data s.data.length s.data []).map String.mk

/-- Replacement worker: emit text, replacing every occurrence of the
pattern; fuelled like `splitOnAuxL`. -/
def replaceAuxL (pat repl : List Char) : Nat → List Char → List Char
  | _, [] => []
  | 0, l => l
  | fuel + 1, c :: rest =>
    if pat.isEmpty then c :: replaceAuxL pat repl fuel rest
    else if List.isPrefixOf pat (c :: rest) then
      repl ++ replaceAuxL pat repl fuel (rest.drop (pat.length - 1))
    else
      c :: replaceAuxL pat repl fuel rest

/-- Python's `s.replace(pat, repl)` for a non-empty pattern. -/
def strReplace (s pat repl : String) : String :=
  if pat.data.isEmpty then s
  else String.mk (replaceAuxL pat.data repl.data s.data.length s.data)

/-- ASCII whitespace test, for `strip()`. -/
def isSpaceChar (c : Char) : Bool :=
  c == ' ' || c == '\t' || c == '\n' || c == '\r'

/-- Python's `s.strip()`. -/
def strTrim (s : String) : String :=
  String.mk (((s.data.dropWhile isSpaceChar).reverse.dropWhile isSpaceChar).reverse)

/-- Python's `s.startswith(p)`. -/
def strStartsWith (s p : String) : Bool :=
  List.isPrefixOf p.data s.data

/-- Python's `s.endswith(p)`. -/
def strEndsWith (s p : String) : Bool :=
  List.isPrefixOf p.data.reverse s.data.reverse

/-- Drop the first `n` characters. -/
def strDrop (s : String) (n : Nat) : String :=
  String.mk (s.data.drop n)

/-- Drop the last `n` characters. -/
def strDropRight (s : String) (n : Nat) : String :=
  String.mk (s.data.take (s.data.length - n))

/-- Lower-case an ASCII letter. -/
def toLowerChar (c : Char) : Char :=
  if 'A' ≤ c && c ≤ 'Z' then Char.ofNat (c.toNat + 32) else c

/-- Python's `s.lower()` (ASCII). -/
def strToLower (s : String) : String :=
  String.mk (s.data.map toLowerChar)

/-- Digit-string to number worker. -/
def digitsToNat (acc : Nat) : List Char → Nat
  | [] => acc
  | c :: rest => digitsToNat (acc * 10 + (c.toNat - 48)) rest

/-- `int(s)` when `s` is a non-empty run of digits, and `none` otherwise. -/
def strToNatOpt (s : String) : Option Nat :=
  if s.data.isEmpty || !(s.data.all fun c => c.isDigit) then none
  else some (digitsToNat 0 s.data)

/-- Character-list lexicographic order, matching Python's string
comparison on code points. -/
def charListLt : List Char → List Char → Bool
  | [], [] => false
  | [], _ :: _ => true
  | _ :: _, [] => false
  | a :: as, b :: bs =>
    if a < b then true
    else if b < a then false
    else charListLt as bs

/-- Python's `a < b` on strings. -/
def strLt (a b : String) : Bool :=
  charListLt a.data b.data

/-! ### The legacy version scheme (modelled) -/

/-- Component of a parsed version string: a numeric release component or an
alphanumeric suffix component. -/
inductive VPart where
  | num (n : Nat)
  | str (s : String)
deriving DecidableEq, Repr

/-- Modelled from the spec: the legacy version scheme of §4.2 is provided by
the external `distlib` library (`distlib.version.LegacyVersion` /
`LegacyMatcher`), whose source is not under `src/`.  A version string is
split on `.`; all-digit components are numeric release components. -/
def parseVersion (s : String) : List VPart :=
  (strSplitOn s ".").map fun p =>
    match strToNatOpt p with
    | some n => .num n
    | none => .str p

/-- Modelled from the spec: comparison of single version components.
Numeric release components compare numerically; a pre-release suffix ranks
below any numeric component; suffixes compare lexicographically (§4.2). -/
def cmpVPart : VPart → VPart → Ordering
  | .num a, .num b => compare a b
  | .num _, .str _ => .gt
  | .str _, .num _ => .lt
  | .str a, .str b => compare a b

/-- How a version that ran out of components compares against the remaining
components of the other: trailing zero components are ignored, a remaining
numeric component makes the longer version newer, and a remaining suffix
makes it older (an absent suffix ranks higher, §4.2). -/
def cmpPad : List VPart → Ordering
  | [] => .eq
  | .num 0 :: ys => cmpPad ys
  | .num (_ + 1) :: _ => .lt
  | .str _ :: _ => .gt

/-- Modelled from the spec: componentwise left-to-right comparison of parsed
versions.  A missing numeric component counts as zero and an absent suffix
ranks higher than any present suffix (§4.2). -/
def cmpParts : List VPart → List VPart → Ordering
  | [], ys => cmpPad ys
  | x :: xs, [] => (cmpPad (x :: xs)).swap
  | x :: xs, y :: ys =>
    match cmpVPart x y with
    | .eq => cmpParts xs ys
    | o => o

/-- Modelled from the spec: `version a` is newer than `version b` under the
legacy scheme. -/
def versionNewer (a b : String) : Bool :=
  cmpParts (parseVersion a) (parseVersion b) == .gt

/-! ### Python string sorting

`Maestro.available_versions` and the `newest` helper inside
`Maestro.best_version` call Python's `sorted(..., reverse=True)` on version
*strings*, i.e. they sort by code-point lexicographic string order, not by
the version scheme.  We embed that order with Lean's `String` order, which
is also code-point lexicographic. -/

/-- Insert a string into a descending-sorted list, preserving the order.
Together with `sortDesc` this embeds Python's `sorted(l, reverse=True)`. -/
def insertDesc (x : String) : List String → List String
  | [] => [x]
  | y :: ys => if strLt y x then x :: y :: ys else y :: insertDesc x ys

/-- Python's `sorted(l, reverse=True)` on strings. -/
def sortDesc : List String → List String
  | [] => []
  | x :: xs => insertDesc x (sortDesc xs)

/-! ### Requirement parsing (modelled) -/

/-- The value object produced by `util.parse_requirement` (§3). -/
structure ParsedReq where
  name : String
  constraints : List (String × String)
  requirement : String
  is_link : Bool
deriving DecidableEq, Repr

/-- Modelled from the spec: name normalization of §3 — case-folded, with
underscores replaced by the canonical hyphens. -/
def normalizeName (s : String) : String :=
  strToLower (String.mk (s.data.map fun c => if c = '_' then '-' else c))

/-- Modelled from the spec: parse one constraint `op version` where a bare
version defaults to the `==` operator (§3, §4.1). -/
def parseConstraint (c : String) : String × String :=
  if strStartsWith c "==" then ("==", strTrim (strDrop c 2))
  else if strStartsWith c "!=" then ("!=", strTrim (strDrop c 2))
  else if strStartsWith c "<=" then ("<=", strTrim (strDrop c 2))
  else if strStartsWith c ">=" then (">=", strTrim (strDrop c 2))
  else if strStartsWith c "<" then ("<", strTrim (strDrop c 1))
  else if strStartsWith c ">" then (">", strTrim (strDrop c 1))
  else ("==", strTrim c)

/-- Python's `sep.join(l)`. -/
def joinSep (sep : String) : List String → String
  | [] => ""
  | [x] => x
  | x :: y :: rest => x ++ sep ++ joinSep sep (y :: rest)

/-- Python's `', '.join(l)`. -/
def commaJoin : List String → String
  | [] => ""
  | [x] => x
  | x :: y :: rest => x ++ ", " ++ commaJoin (y :: rest)

/-- Modelled from the spec: `util.parse_requirement` lives in
`curdling/util.py`, which is not under `src/`.  Per §3 a requirement string
is either a link (a URL) or has the `name (constraint, ...)` form; the
`requirement` field is the canonical string with every operator explicit,
and `name` is the normalized identifier used during lookup. -/
def parse_requirement (s : String) : ParsedReq :=
  if (strSplitOn s "://").length > 1 then
    { name := s, constraints := [], requirement := s, is_link := true }
  else
    match strSplitOn s " (" with
    | [] => { name := "", constraints := [], requirement := s, is_link := false }
    | [n] => { name := normalizeName n, constraints := [], requirement := n, is_link := false }
    | n :: rest =>
      let inner := joinSep " (" rest
      let inner := if strEndsWith inner ")" then strDropRight inner 1 else inner
      let cons := (strSplitOn inner ",").map fun c => parseConstraint (strTrim c)
      { name := normalizeName n,
        constraints := cons,
        requirement := n ++ " (" ++ commaJoin (cons.map fun p => p.1 ++ " " ++ p.2) ++ ")",
        is_link := false }

/-- Embeds `maestro.format_requirement`: re-serialize the parsed requirement
and drop any explicit `== ` operator prefix. -/
def format_requirement (requirement : String) : String :=
  strReplace (parse_requirement requirement).requirement "== " ""

/-- Embeds `maestro.list_constraints`: `', '.join(' '.join(x) for x in
requirement.constraints or ()).replace('== ', '') or None`. -/
def list_constraints (pr : ParsedReq) : Option String :=
  let s := strReplace (commaJoin (pr.constraints.map fun p => p.1 ++ " " ++ p.2)) "== " ""
  if s = "" then none else some s

/-- Embeds `maestro.wheel_version`: `path.split('-')[1]`; fewer than two
hyphen-separated segments raise `IndexError`. -/
def wheel_version (path : String) : Except Err String :=
  match strSplitOn path "-" with
  | _ :: v :: _ => .ok v
  | _ => .error .indexError

/-- Modelled from the spec: the conjunctive constraint matcher of the legacy
scheme (`distlib.version.LegacyMatcher`, §4.2) applied to one version. -/
def opMatches (op version constraint : String) : Bool :=
  let o := cmpParts (parseVersion version) (parseVersion constraint)
  match op with
  | "<" => o == .lt
  | ">" => o == .gt
  | "<=" => o == .lt || o == .eq
  | ">=" => o == .gt || o == .eq
  | "==" => o == .eq
  | "!=" => !(o == .eq)
  | _ => false

/-- Modelled from the spec: a version matches a constraint set iff it
matches every constraint (§4.2). -/
def matchesConstraints (cons : List (String × String)) (version : String) : Bool :=
  cons.all fun p => opMatches p.1 version p.2

/-! ### The Maestro registry -/

/-- The fixed data-field set of §3. -/
inductive Field where
  | requirement
  | url
  | locator_url
  | directory
  | tarball
  | wheel
  | exception
deriving DecidableEq, Repr

/-- Embeds `Maestro.data_structure`: the per-requirement write-once slots,
all initially `None`. -/
structure DataSlots where
  requirement : Option String := none
  url : Option String := none
  locator_url : Option String := none
  directory : Option String := none
  tarball : Option String := none
  wheel : Option String := none
  exception : Option String := none
deriving DecidableEq, Repr

/-- Read one data slot. -/
def DataSlots.get (d : DataSlots) : Field → Option String
  | .requirement => d.requirement
  | .url => d.url
  | .locator_url => d.locator_url
  | .directory => d.directory
  | .tarball => d.tarball
  | .wheel => d.wheel
  | .exception => d.exception

/-- Write one data slot. -/
def DataSlots.set (d : DataSlots) : Field → Option String → DataSlots
  | .requirement, v => { d with requirement := v }
  | .url, v => { d with url := v }
  | .locator_url, v => { d with locator_url := v }
  | .directory, v => { d with directory := v }
  | .tarball, v => { d with tarball := v }
  | .wheel, v => { d with wheel := v }
  | .exception, v => { d with exception := v }

/-- The source's field names, for the `set_data` error message. -/
def fieldName : Field → String
  | .requirement => "requirement"
  | .url => "url"
  | .locator_url => "locator_url"
  | .directory => "directory"
  | .tarball => "tarball"
  | .wheel => "wheel"
  | .exception => "exception"

/-- Embeds `Maestro.requirement_structure`: status bitmap, dependency
back-links and data slots of one filed requirement. -/
structure Entry where
  status : Nat := 0
  dependency_of : List (Option String) := []
  data : DataSlots := {}
deriving DecidableEq, Repr

/-- Embeds the `Maestro` registry.  `mapping` is the `self.mapping` dict as
an insertion-ordered association list with distinct keys. -/
structure Maestro where
  mapping : List (String × Entry) := []
deriving DecidableEq, Repr

/-- Replace the entry stored under `k`, leaving other bindings unchanged. -/
def updateEntry (k : String) (f : Entry → Entry) : List (String × Entry) → List (String × Entry)
  | [] => []
  | (k', e) :: rest => if k' == k then (k', f e) :: rest else (k', e) :: updateEntry k f rest

/-- Embeds `Maestro.file_requirement`: canonicalize, insert a fresh entry if
the key is absent, and append the parent to the dependency back-links. -/
def file_requirement (m : Maestro) (requirement : String) (dependency_of : Option String) : Maestro :=
  match m.mapping.lookup (format_requirement requirement) with
  | none =>
    { mapping := m.mapping ++
        [(format_requirement requirement,
          { status := 0, dependency_of := [dependency_of], data := {} })] }
  | some _ =>
    { mapping := updateEntry (format_requirement requirement)
        (fun e => { e with dependency_of := e.dependency_of ++ [dependency_of] }) m.mapping }

/-- Embeds `Maestro.get_data`: canonicalize the key and read the slot; a
missing requirement raises `KeyError`. -/
def get_data (m : Maestro) (requirement : String) (field : Field) : Except Err (Option String) :=
  match m.mapping.lookup (format_requirement requirement) with
  | none => .error (.keyError (format_requirement requirement))
  | some e => .ok (e.data.get field)

/-- Embeds `Maestro.set_data`: write-once semantics — writing a non-`None`
slot raises `ValueError`. -/
def set_data (m : Maestro) (requirement : String) (field : Field) (value : String) : Except Err Maestro :=
  match m.mapping.lookup (format_requirement requirement) with
  | none => .error (.keyError (format_requirement requirement))
  | some e =>
    match e.data.get field with
    | some _ =>
      .error (.valueError ("Data field `" ++ fieldName field ++ "` is not empty for the requirement \"" ++ format_requirement requirement ++ "\""))
    | none =>
      .ok { mapping := updateEntry (format_requirement requirement)
              (fun e' => { e' with data := e'.data.set field (some value) }) m.mapping }

/-- Embeds `Maestro.get_requirements_by_package_name`: all filed requirement
strings whose parsed name equals the parsed name of the argument. -/
def get_requirements_by_package_name (m : Maestro) (package_name : String) : List String :=
  (m.mapping.map Prod.fst).filter fun x =>
    (parse_requirement x).name == (parse_requirement package_name).name

/-- One step of the generator inside `Maestro.available_versions`:
`wheel_version(self.mapping[requirement]['data']['wheel'])`. -/
def wheelOfEntry (p : String × Entry) : Except Err String :=
  match p.2.data.wheel with
  | none => .error Err.typeError
  | some path => wheel_version path

/-- Evaluate the wheel-version generator over the whole registry, stopping
at the first raising slot, as `set(...)` does when consuming it. -/
def mapWheel : List (String × Entry) → Except Err (List String)
  | [] => .ok []
  | p :: rest =>
    match wheelOfEntry p with
    | .error e => .error e
    | .ok v =>
      match mapWheel rest with
      | .error e => .error e
      | .ok vs => .ok (v :: vs)

/-- Embeds `Maestro.available_versions`.  Faithful to the source: the
comprehension ranges over every filed requirement regardless of
`package_name`, reads each `wheel` slot (a `None` slot raises, as
`None.split` does), and the result is deduplicated and sorted descending by
raw string order. -/
def available_versions (m : Maestro) (package_name : String) : Except Err (List String) :=
  match mapWheel m.mapping with
  | .error e => .error e
  | .ok vs => .ok (sortDesc vs.dedup)

/-- Embeds `Maestro.matching_versions`: the available versions that satisfy
the requirement's constraint set under the legacy matcher. -/
def matching_versions (m : Maestro) (requirement : String) : Except Err (List String) :=
  match available_versions m (parse_requirement requirement).name with
  | .error e => .error e
  | .ok versions =>
    .ok (versions.filter (matchesConstraints (parse_requirement requirement).constraints))

/-- The comprehension filter inside `Maestro.broken_versions`: the guard
reads the requirement's own `exception` slot once per element. -/
def brokenFilter (m : Maestro) (requirement : String) : List String → Except Err (List String)
  | [] => .ok []
  | v :: vs =>
    match get_data m requirement Field.exception with
    | .error e => .error e
    | .ok exc =>
      match brokenFilter m requirement vs with
      | .error e => .error e
      | .ok rest => .ok (if exc.isSome then v :: rest else rest)

/-- Embeds `Maestro.broken_versions`. -/
def broken_versions (m : Maestro) (requirement : String) : Except Err (List String) :=
  match available_versions m (parse_requirement requirement).name with
  | .error e => .error e
  | .ok versions => brokenFilter m requirement versions

/-- Python truthiness of the `dependency_of` elements: `None` and the empty
string are falsy and are removed by `filter(None, ...)`. -/
def truthyOpt : Option String → Bool
  | none => false
  | some s => !s.data.isEmpty

/-- Embeds `Maestro.is_primary_requirement`: true iff the back-link list has
no truthy element; direct dictionary access raises `KeyError` when the
requirement is not filed. -/
def is_primary_requirement (m : Maestro) (requirement : String) : Except Err Bool :=
  match m.mapping.lookup requirement with
  | none => .error (.keyError requirement)
  | some e => .ok ((e.dependency_of.filter truthyOpt).isEmpty)

/-! ### `Maestro.best_version` -/

/-- The loop state of the gathering pass inside `Maestro.best_version`:
`primary_versions`, `all_versions`, `requirements_by_version` (`rbv`) and
`all_constraints`. -/
structure Gather where
  primary_versions : List String := []
  all_versions : List String := []
  rbv : List (String × String) := []
  all_constraints : List (Option String) := []
deriving DecidableEq, Repr

/-- Set a key in an association list, overwriting an existing binding —
`dict.update` for a single pair. -/
def setAssoc (k v : String) : List (String × String) → List (String × String)
  | [] => [(k, v)]
  | (k', v') :: rest => if k' == k then (k, v) :: rest else (k', v') :: setAssoc k v rest

/-- `requirements_by_version.update((v, requirement) for v in versions)`. -/
def updateRbv (rbv : List (String × String)) (versions : List String) (req : String) : List (String × String) :=
  versions.foldl (fun acc v => setAssoc v req acc) rbv

/-- The gathering `for` loop of `Maestro.best_version`, iterating over the
requirements of the package in registry order. -/
def gather (m : Maestro) : List String → Gather → Except Err Gather
  | [], g => .ok g
  | requirement :: rest, g =>
    match is_primary_requirement m requirement with
    | .error e => .error e
    | .ok prim =>
      let step : Except Err (List String) :=
        if prim then
          match get_data m requirement Field.wheel with
          | .error e => .error e
          | .ok none => .error .typeError
          | .ok (some path) =>
            match wheel_version path with
            | .error e => .error e
            | .ok v => .ok (g.primary_versions ++ [v])
        else .ok g.primary_versions
      match step with
      | .error e => .error e
      | .ok prims =>
        match matching_versions m requirement with
        | .error e => .error e
        | .ok versions =>
          gather m rest
            { primary_versions := prims,
              all_versions := g.all_versions ++ versions,
              rbv := updateRbv g.rbv versions requirement,
              all_constraints := g.all_constraints ++ [list_constraints (parse_requirement requirement)] }

/-- The `newest` helper of `Maestro.best_version`:
`sorted(versions, reverse=True)[0]` — raw string sort, `IndexError` on an
empty list. -/
def newest (versions : List String) : Except Err String :=
  match sortDesc versions with
  | [] => .error .indexError
  | v :: _ => .ok v

/-- `', '.join(all_constraints)`: joining a list that contains `None`
raises `TypeError`. -/
def seqOpts : List (Option String) → Except Err (List String)
  | [] => .ok []
  | none :: _ => .error .typeError
  | some c :: rest =>
    match seqOpts rest with
    | .error e => .error e
    | .ok l => .ok (c :: l)

/-- The `VersionConflict` message format string of `Maestro.best_version`. -/
def conflictMessage (packageName constraints availables : String) : String :=
  "Requirement: " ++ packageName ++ " (" ++ constraints ++ "), Available versions: " ++ availables

/-- The intersection step of `Maestro.best_version`: the versions appearing
in as many matching lists as there are requirements. -/
def compatibleVersions (allVersions : List String) (nreqs : Nat) : List String :=
  allVersions.filter fun v => allVersions.count v == nreqs

/-- Embeds `Maestro.best_version`. -/
def best_version (m : Maestro) (requirement_or_package_name : String) : Except Err (String × String) :=
  match gather m (get_requirements_by_package_name m
      (parse_requirement requirement_or_package_name).name) {} with
  | .error e => .error e
  | .ok g =>
    if g.primary_versions.isEmpty then
      if (compatibleVersions g.all_versions (get_requirements_by_package_name m
          (parse_requirement requirement_or_package_name).name).length).isEmpty then
        match seqOpts g.all_constraints with
        | .error e => .error e
        | .ok cs =>
          match available_versions m (parse_requirement requirement_or_package_name).name with
          | .error e => .error e
          | .ok avail =>
            .error (.versionConflict (conflictMessage
              (parse_requirement requirement_or_package_name).name
              (commaJoin cs) (commaJoin avail)))
      else
        match newest (compatibleVersions g.all_versions (get_requirements_by_package_name m
            (parse_requirement requirement_or_package_name).name).length) with
        | .error e => .error e
        | .ok v =>
          match g.rbv.lookup v with
          | some r => .ok (v, r)
          | none => .error (.keyError v)
    else
      match newest g.primary_versions with
      | .error e => .error e
      | .ok v =>
        match g.rbv.lookup v with
        | some r => .ok (v, r)
        | none => .error (.keyError v)

/-! ### The downloader service (`src/curdling/services/downloader.py`) -/

/-- Insert a version string into an ascending list sorted by the legacy
scheme key; embeds `sorted(slist, key=scheme.key)` in `find_packages`. -/
def insertAscScheme (x : String) : List String → List String
  | [] => [x]
  | y :: ys =>
    if cmpParts (parseVersion x) (parseVersion y) == .lt then x :: y :: ys
    else y :: insertAscScheme x ys

/-- `sorted(slist, key=scheme.key)` of `find_packages`: ascending under the
(modelled) legacy scheme key. -/
def sortAscScheme : List String → List String
  | [] => []
  | x :: xs => insertAscScheme x (sortAscScheme xs)

/-- A locator as `find_packages` and `AggregatingLocator.locate` consume it:
`get_project` produces the catalog — a `version → distribution` mapping —
for a package name.  Distributions are identified by an opaque string. -/
structure Locator where
  get_project : String → List (String × String)

/-- Embeds `downloader.find_packages`: filter the catalog keys through the
scheme matcher built from `requirement.requirement`, sort them ascending by
the scheme key and return the distribution of the highest key; an empty
catalog or no matching key yields the falsy empty result (`none`). -/
def find_packages (locator : Locator) (requirement : ParsedReq) (versions : List (String × String)) : Option String :=
  let _ := locator
  let matcherCons := (parse_requirement requirement.requirement).constraints
  if versions.isEmpty then none
  else
    let slist := sortAscScheme ((versions.map Prod.fst).filter (matchesConstraints matcherCons))
    match slist.getLast? with
    | none => none
    | some k => versions.lookup k

/-- Embeds `AggregatingLocator.locate`.  Faithful to the source: the body of
`for locator in self.locators` ends in an unconditional
`return find_packages(locator, pkg, versions) or None`, so only the first
locator is ever consulted; an empty locator list falls through to `None`. -/
def locate (locators : List Locator) (requirement : String) : Option String :=
  match locators with
  | [] => none
  | locator :: _ =>
    let pkg := parse_requirement requirement
    find_packages locator pkg (locator.get_project pkg.name)

/-! ### URL credential propagation -/

/-- The result of `urlparse`: scheme, netloc and the four tail components.
`Downloader.update_url_credentials` treats the netloc as a raw string and
derives hostname, port and userinfo from it. -/
structure Url where
  scheme : String := ""
  netloc : String := ""
  path : String := ""
  params : String := ""
  query : String := ""
  fragment : String := ""
deriving DecidableEq, Repr

/-- Modelled from the spec: the host-and-port part of a netloc — everything
after the last `@` (`urlparse` behaviour; `urlparse` is standard-library
code outside `src/`). -/
def netlocHostport (netloc : String) : String :=
  (strSplitOn netloc "@").getLastD netloc

/-- Modelled from the spec: `ParseResult.hostname` — the host part of the
netloc, lowercased; the empty string stands for Python's `None`. -/
def hostname (netloc : String) : String :=
  strToLower ((strSplitOn (netlocHostport netloc) ":").headD "")

/-- Modelled from the spec: `ParseResult.port`. -/
def port (netloc : String) : Option Nat :=
  match strSplitOn (netlocHostport netloc) ":" with
  | _ :: p :: _ => strToNatOpt p
  | _ => none

/-- Modelled from the spec: the userinfo component of a netloc — everything
before the last `@`, when present. -/
def userinfo (netloc : String) : Option String :=
  match strSplitOn netloc "@" with
  | [] => none
  | [_] => none
  | parts => some (joinSep "@" parts.dropLast)

/-- Replace the userinfo component of a netloc, used to state the claim's
reading of credential propagation (the userinfo alone changes). -/
def setUserinfo (netloc : String) (ui : Option String) : String :=
  match ui with
  | none => netlocHostport netloc
  | some u => u ++ "@" ++ netlocHostport netloc

/-- Embeds `Downloader.update_url_credentials`: if hostname or port differ
the other URL is returned untouched; otherwise the *whole netloc* of the
base URL replaces the other URL's netloc (`urlunparse((scheme, base.netloc,
path, params, query, fragment))`). -/
def update_url_credentials (base other : Url) : Url :=
  if hostname base.netloc ≠ hostname other.netloc ∨ port base.netloc ≠ port other.netloc then
    other
  else
    { other with netloc := base.netloc }

/-! ### `Downloader.download` -/

/-- An HTTP response as `Downloader.download` consumes it: status code,
headers and the raw body returned by `response.read`. -/
structure HttpResponse where
  status : Nat := 200
  headers : List (String × String) := []
  body : String := ""
deriving DecidableEq, Repr

/-- `response.headers.get(key, default)`. -/
def headersGet (headers : List (String × String)) (key dflt : String) : String :=
  (headers.lookup key).getD dflt

/-- A distribution as `Downloader.download` consumes it: the download URL
and, when the distribution came from a locator, that locator's base URL. -/
structure Distribution where
  download_url : String := ""
  locator_base_url : Option String := none
deriving DecidableEq, Repr

/-- The scanner behind `re.findall(r'filename=([^;]+)', header)[0]`: find
the first occurrence of `filename=` followed by a non-empty run of
non-semicolon characters and return that run. -/
def scanFilename : List Char → Option (List Char)
  | [] => none
  | c :: rest =>
    if List.isPrefixOf "filename=".data (c :: rest) then
      let cap := ((c :: rest).drop 9).takeWhile (fun ch => ch ≠ ';')
      if cap.isEmpty then scanFilename rest else some cap
    else scanFilename rest

/-- First `filename=([^;]+)` capture of a header value, if any. -/
def firstFilename (s : String) : Option String :=
  (scanFilename s.data).map fun cs => String.mk cs

/-- Embeds `Downloader.download` after the HTTP round trip.  The retrieval
itself (`self.opener.retrieve(final_url)`, where `final_url` is the
credential-updated URL) is I/O and is represented by passing the response it
produced; the redirect location returned by `retrieve` is discarded by the
source (`response, _ = ...`).  On a non-200 status a `ReportableError` is
raised; otherwise the submitted file name is the first `filename=` capture
of the `Content-Disposition` header if it is truthy, and the *original*
download URL otherwise. -/
def download (distribution : Distribution) (response : HttpResponse) : Except Err (String × String) :=
  if response.status ≠ 200 then
    .error (.reportableError ("Failed to download url `" ++ distribution.download_url ++ "'"))
  else
    .ok
      (match firstFilename (headersGet response.headers "content-disposition" "") with
       | some f => if f = "" then distribution.download_url else f
       | none => distribution.download_url,
       response.body)

/-- Modelled from the spec: the basename of a URL (the part after the last
slash), used only to state claim C8 as written. -/
def basename (s : String) : String :=
  (strSplitOn s "/").getLastD s

/-- The amended filename rule for claim C8, written from the amended claim's
words: the `filename=` capture of the `Content-Disposition` header — up to
the next `;`, surrounding quotes retained — when present, and otherwise the
full originally requested URL. -/
def amendedName (distribution : Distribution) (response : HttpResponse) : String :=
  match firstFilename (headersGet response.headers "content-disposition" "") with
  | some f => f
  | none => distribution.download_url

/-! ## Helper lemmas -/

deriving instance DecidableEq for Except

/-- A string occurs inside another: `sub` is a contiguous substring. -/
def StrContains (s sub : String) : Prop :=
  ∃ a b, s = a ++ (sub ++ b)

theorem StrContains.appL {s sub : String} (t : String) (h : StrContains s sub) :
    StrContains (t ++ s) sub := by
  obtain ⟨a, b, hab⟩ := h
  exact ⟨t ++ a, b, by rw [hab, String.append_assoc]⟩

theorem StrContains.appR {s sub : String} (t : String) (h : StrContains s sub) :
    StrContains (s ++ t) sub := by
  obtain ⟨a, b, hab⟩ := h
  exact ⟨a, b ++ t, by rw [hab, String.append_assoc, String.append_assoc]⟩

theorem StrContains.refl (s : String) : StrContains s s :=
  ⟨"", "", by rw [String.append_empty, String.empty_append]⟩

theorem commaJoin_contains {x : String} : ∀ {l : List String}, x ∈ l → StrContains (commaJoin l) x
  | [], h => absurd h (List.not_mem_nil x)
  | [y], h => by
    rcases List.mem_singleton.mp h with rfl
    exact StrContains.refl x
  | y :: z :: rest, h => by
    rcases List.mem_cons.mp h with rfl | h2
    · exact ((StrContains.refl x).appR ", ").appR (commaJoin (z :: rest))
    · exact (commaJoin_contains h2).appL (y ++ ", ")

theorem seqOpts_mem {c : String} :
    ∀ {l : List (Option String)} {cl : List String},
      seqOpts l = .ok cl → some c ∈ l → c ∈ cl
  | [], _, _, h => absurd h (List.not_mem_nil _)
  | none :: _, _, hseq, _ => by simp [seqOpts] at hseq
  | some d :: rest, cl, hseq, hmem => by
    simp only [seqOpts] at hseq
    cases hrest : seqOpts rest with
    | error e => rw [hrest] at hseq; cases hseq
    | ok l' =>
      rw [hrest] at hseq
      cases hseq
      rcases List.mem_cons.mp hmem with heq | h2
      · cases heq; exact List.mem_cons_self _ _
      · exact List.mem_cons_of_mem _ (seqOpts_mem hrest h2)

theorem lookup_append_of_none {k : String} {l1 l2 : List (String × Entry)}
    (h : l1.lookup k = none) : (l1 ++ l2).lookup k = l2.lookup k := by
  induction l1 with
  | nil => rfl
  | cons p rest ih =>
    obtain ⟨k', e⟩ := p
    by_cases hk : k = k'
    · subst hk
      simp [List.lookup] at h
    · have hb : (k == k') = false := beq_eq_false_iff_ne.mpr hk
      simp only [List.cons_append, List.lookup, hb] at h ⊢
      exact ih h

theorem lookup_updateEntry_self {k : String} (f : Entry → Entry) :
    ∀ (l : List (String × Entry)), (updateEntry k f l).lookup k = (l.lookup k).map f
  | [] => rfl
  | (k', e) :: rest => by
    simp only [updateEntry]
    cases hk : k' == k with
    | true =>
      have : k == k' := by rw [beq_iff_eq] at hk ⊢; exact hk.symm
      simp [List.lookup, this]
    | false =>
      have : (k == k') = false := by
        rw [beq_eq_false_iff_ne] at hk ⊢
        exact fun h => hk h.symm
      simp [List.lookup, this, lookup_updateEntry_self f rest]

theorem updateEntry_length {k : String} (f : Entry → Entry) :
    ∀ (l : List (String × Entry)), (updateEntry k f l).length = l.length
  | [] => rfl
  | (k', e) :: rest => by
    simp only [updateEntry]
    cases hk : k' == k <;> simp [updateEntry_length f rest]

theorem DataSlots.get_set_same (d : DataSlots) (f : Field) (v : Option String) :
    (d.set f v).get f = v := by
  cases f <;> rfl

theorem insertDesc_perm (x : String) :
    ∀ (l : List String), List.Perm (insertDesc x l) (x :: l)
  | [] => List.Perm.refl _
  | y :: ys => by
    simp only [insertDesc]
    cases strLt y x with
    | true => simp
    | false =>
      simp only [Bool.false_eq_true, if_false]
      exact ((insertDesc_perm x ys).cons y).trans (List.Perm.swap x y ys)

theorem sortDesc_perm : ∀ (l : List String), List.Perm (sortDesc l) l
  | [] => List.Perm.refl _
  | x :: xs => (insertDesc_perm x (sortDesc xs)).trans ((sortDesc_perm xs).cons x)

theorem available_versions_nodup {m : Maestro} {n : String} {vs : List String}
    (h : available_versions m n = .ok vs) : vs.Nodup := by
  unfold available_versions at h
  cases hm : mapWheel m.mapping with
  | error e => rw [hm] at h; cases h
  | ok l =>
    rw [hm] at h
    cases h
    exact ((sortDesc_perm l.dedup).symm).nodup (List.nodup_dedup l)

theorem matching_versions_nodup {m : Maestro} {r : String} {l : List String}
    (h : matching_versions m r = .ok l) : l.Nodup := by
  unfold matching_versions at h
  cases hav : available_versions m (parse_requirement r).name with
  | error e => rw [hav] at h; cases h
  | ok vs =>
    rw [hav] at h
    cases h
    exact (available_versions_nodup hav).filter _

theorem map_sum_le_length (f : String → Nat) :
    ∀ (l : List String), (∀ a ∈ l, f a ≤ 1) → (l.map f).sum ≤ l.length
  | [], _ => Nat.le_refl 0
  | a :: rest, h => by
    simp only [List.map_cons, List.sum_cons, List.length_cons]
    have h1 := h a (List.mem_cons_self a rest)
    have h2 := map_sum_le_length f rest fun b hb => h b (List.mem_cons_of_mem a hb)
    omega

theorem map_sum_lt_length (f : String → Nat) :
    ∀ (l : List String), (∀ a ∈ l, f a ≤ 1) →
      ∀ r₀ ∈ l, f r₀ = 0 → (l.map f).sum < l.length
  | [], _, r₀, hr₀, _ => absurd hr₀ (List.not_mem_nil r₀)
  | a :: rest, h, r₀, hr₀, h0 => by
    simp only [List.map_cons, List.sum_cons, List.length_cons]
    rcases List.mem_cons.mp hr₀ with rfl | hmem
    · have := map_sum_le_length f rest fun b hb => h b (List.mem_cons_of_mem r₀ hb)
      omega
    · have h1 := h a (List.mem_cons_self a rest)
      have h2 := map_sum_lt_length f rest
        (fun b hb => h b (List.mem_cons_of_mem a hb)) r₀ hmem h0
      omega

/-- The invariants of the gathering loop of `best_version` when every
requirement of the package is non-primary and has a defined matching-version
list. -/
theorem gather_ok_spec (m : Maestro) (M : String → List String) :
    ∀ (l : List String) (g0 g : Gather),
      gather m l g0 = .ok g →
      (∀ r ∈ l, is_primary_requirement m r = .ok false) →
      (∀ r ∈ l, matching_versions m r = .ok (M r)) →
      g.primary_versions = g0.primary_versions ∧
      g.all_versions = g0.all_versions ++ l.flatMap M ∧
      g.all_constraints = g0.all_constraints ++
        l.map fun r => list_constraints (parse_requirement r)
  | [], g0, g, hg, _, _ => by
    simp only [gather] at hg
    cases hg
    simp
  | r :: rest, g0, g, hg, hnp, hM => by
    simp only [gather, hnp r (List.mem_cons_self r rest),
      hM r (List.mem_cons_self r rest), Bool.false_eq_true, if_false] at hg
    have := gather_ok_spec m M rest _ g hg
      (fun r' hr' => hnp r' (List.mem_cons_of_mem r hr'))
      (fun r' hr' => hM r' (List.mem_cons_of_mem r hr'))
    obtain ⟨h1, h2, h3⟩ := this
    refine ⟨h1, ?_, ?_⟩
    · rw [h2]; simp
    · rw [h3]; simp

/-- Unfolding `file_requirement` when the canonical key is absent. -/
theorem file_requirement_absent {m : Maestro} {s : String} (p : Option String)
    (h : m.mapping.lookup (format_requirement s) = none) :
    (file_requirement m s p).mapping
      = m.mapping ++ [(format_requirement s, { status := 0, dependency_of := [p], data := {} })] := by
  simp [file_requirement, h]

/-- Unfolding `file_requirement` when the canonical key is present. -/
theorem file_requirement_present {m : Maestro} {s : String} {e : Entry} (p : Option String)
    (h : m.mapping.lookup (format_requirement s) = some e) :
    (file_requirement m s p).mapping
      = updateEntry (format_requirement s)
          (fun e' => { e' with dependency_of := e'.dependency_of ++ [p] }) m.mapping := by
  simp [file_requirement, h]

/-! ## The claims -/

/-- The registry of the spec's primary-override scenario: `foo (>= 1.0)` is
filed as a user-supplied requirement and holds the wheel
`foo-2.0-cp27-none-any.whl`; `foo (< 1.5)` is filed as a dependency of
another package and its `wheel` slot is still unset.  `entC1a` is the
primary entry holding the wheel. -/
def entC1a : Entry :=
  { status := 0, dependency_of := [none], data := { wheel := some "foo-2.0-cp27-none-any.whl" } }

/-- The dependency entry of `mC1`, with no wheel recorded. -/
def entC1b : Entry :=
  { status := 0, dependency_of := [some "parent (1.0)"], data := {} }

/-- The registry of the primary-override scenario; see `entC1a`. -/
def mC1 : Maestro :=
  { mapping := [("foo (>= 1.0)", entC1a), ("foo (< 1.5)", entC1b)] }

/-- Claim C1: the primary-override branch of `best_version` is claimed to
return the newest primary wheel version as a pair.  On the registry `mC1`
— reachable through `file_requirement` and `set_data`, as the first
conjunct shows — `best_version` instead raises: `matching_versions` calls
`available_versions`, which scans the `wheel` slot of *every* filed
requirement, and the dependency's unset slot makes `wheel_version(None)`
blow up (`None.split`), so no pair is ever produced. -/
theorem claimC1_primary_override_crashes :
    set_data (file_requirement (file_requirement ⟨[]⟩ "foo (>= 1.0)" none)
        "foo (< 1.5)" (some "parent (1.0)"))
      "foo (>= 1.0)" Field.wheel "foo-2.0-cp27-none-any.whl" = .ok mC1 ∧
    best_version mC1 "foo" = .error .typeError := by
  exact ⟨by decide, by decide⟩

/-- The registry of the intersection scenario with the versions `2.0` and
`10.0`: both requirements are dependencies (non-primary) and both versions
match both constraint sets.  `entC2a` is the first dependency entry, wheel
version `2.0`. -/
def entC2a : Entry :=
  { status := 0, dependency_of := [some "x (1.0)"], data := { wheel := some "bar-2.0-py27-none-any.whl" } }

/-- The second dependency entry of `mC2`, wheel version `10.0`. -/
def entC2b : Entry :=
  { status := 0, dependency_of := [some "x (1.0)"], data := { wheel := some "bar-10.0-py27-none-any.whl" } }

/-- The registry of the intersection scenario; see `entC2a`, `entC2b`. -/
def mC2 : Maestro :=
  { mapping := [("bar (>= 1.0)", entC2a), ("bar (>= 0.5)", entC2b)] }

/-- Claim C2: both `2.0` and `10.0` are compatible with every requirement of
`bar`, and the legacy version scheme ranks `10.0` as the newer one
(third conjunct); but `best_version` picks the newest by *raw string*
sorting (`sorted(versions, reverse=True)[0]`), which returns `2.0`. -/
theorem claimC2_newest_is_string_sorted :
    best_version mC2 "bar" = .ok ("2.0", "bar (>= 0.5)") ∧
    matching_versions mC2 "bar (>= 1.0)" = .ok ["2.0", "10.0"] ∧
    matching_versions mC2 "bar (>= 0.5)" = .ok ["2.0", "10.0"] ∧
    versionNewer "10.0" "2.0" = true := by
  exact ⟨by decide, by decide, by decide, by decide⟩

/-- A first locator whose catalog has no entry for any package. -/
def locatorEmptyC4 : Locator := ⟨fun _ => []⟩

/-- A second locator whose catalog for `pkg` has a matching distribution. -/
def locatorFullC4 : Locator := ⟨fun n => if n = "pkg" then [("1.0", "dist2")] else []⟩

/-- Claim C4: with an ordered pair of locators whose first yields an empty
catalog, `locate` is claimed to consult the second.  The loop body of
`AggregatingLocator.locate` ends in an unconditional `return`, so the
second locator — whose catalog does hold a match, as the second conjunct
shows — is never consulted and `locate` returns empty. -/
theorem claimC4_locate_stops_at_first_locator :
    locate [locatorEmptyC4, locatorFullC4] "pkg (>= 0.5)" = none ∧
    find_packages locatorFullC4 (parse_requirement "pkg (>= 0.5)")
      (locatorFullC4.get_project "pkg") = some "dist2" := by
  exact ⟨by decide, by decide⟩

/-- A registry holding one requirement for `foo` (wheel version `1.0`) and
one for `bar` (wheel version `2.0`).  `entC5a` is the `foo` entry. -/
def entC5a : Entry :=
  { status := 0, dependency_of := [none], data := { wheel := some "foo-1.0-py2-none-any.whl" } }

/-- The `bar` entry of `mC5`, wheel version `2.0`. -/
def entC5b : Entry :=
  { status := 0, dependency_of := [none], data := { wheel := some "bar-2.0-py2-none-any.whl" } }

/-- The two-package registry of the C5 failing input. -/
def mC5 : Maestro :=
  { mapping := [("foo (1.0)", entC5a), ("bar (2.0)", entC5b)] }

/-- Claim C5: `available_versions("foo")` is claimed to contain only the
wheel versions of the requirements filed for `foo` (here just `1.0`, since
`foo (1.0)` is the only requirement of `foo` — second conjunct); the code
ignores its `package_name` parameter and scans every filed requirement, so
`bar`'s version `2.0` is included as well. -/
theorem claimC5_available_versions_ignores_package_name :
    available_versions mC5 "foo" = .ok ["2.0", "1.0"] ∧
    get_requirements_by_package_name mC5 "foo" = ["foo (1.0)"] := by
  exact ⟨by decide, by decide⟩

/-- The locator's base URL of the C6 counterexample: same host as the
artifact URL up to letter case, with credentials. -/
def baseC6 : Url := { scheme := "http", netloc := "u:p@SRV", path := "/simple" }

/-- The artifact URL of the C6 counterexample. -/
def otherC6 : Url := { scheme := "http", netloc := "srv", path := "/pkg.tgz" }

/-- Claim C6 (counterexample): hostnames (case-insensitive) and ports agree,
so the claim demands the result be `otherC6` with only its userinfo
component replaced by `u:p`; the code instead substitutes the whole netloc
of the base URL, adopting its host spelling `SRV`. -/
theorem claimC6_counterexample :
    hostname baseC6.netloc = hostname otherC6.netloc ∧
    port baseC6.netloc = port otherC6.netloc ∧
    update_url_credentials baseC6 otherC6 ≠
      { otherC6 with netloc := setUserinfo otherC6.netloc (userinfo baseC6.netloc) } := by
  exact ⟨by decide, by decide, by decide⟩

/-- Claim C6 (amended): `update_url_credentials` returns the second URL
unchanged whenever hostname or port differ; otherwise it replaces the
second URL's whole netloc (userinfo, host spelling and port) with the
base's netloc, leaving scheme, path, params, query and fragment
unchanged. -/
theorem claimC6_amended (base other : Url) :
    (hostname base.netloc ≠ hostname other.netloc ∨ port base.netloc ≠ port other.netloc →
      update_url_credentials base other = other) ∧
    (hostname base.netloc = hostname other.netloc → port base.netloc = port other.netloc →
      (update_url_credentials base other).scheme = other.scheme ∧
      (update_url_credentials base other).path = other.path ∧
      (update_url_credentials base other).params = other.params ∧
      (update_url_credentials base other).query = other.query ∧
      (update_url_credentials base other).fragment = other.fragment ∧
      (update_url_credentials base other).netloc = base.netloc) := by
  constructor
  · intro h
    simp only [update_url_credentials, if_pos h]
  · intro h1 h2
    have hcond : ¬(hostname base.netloc ≠ hostname other.netloc ∨
        port base.netloc ≠ port other.netloc) :=
      fun h => h.elim (fun hh => hh h1) (fun hh => hh h2)
    unfold update_url_credentials
    rw [if_neg hcond]
    exact ⟨rfl, rfl, rfl, rfl, rfl, rfl⟩

/-- The cross-host pair of the credential-propagation scenario. -/
def base1C6 : Url := { scheme := "http", netloc := "user:passwd@srv1", path := "/resource1.html" }

/-- The artifact URL on the other host. -/
def other1C6 : Url := { scheme := "http", netloc := "srv2", path := "/resource2.html" }

/-- The same-host pair of the credential-propagation scenario. -/
def base2C6 : Url := { scheme := "http", netloc := "u:p@srv", path := "/simple" }

/-- The artifact URL on the same host. -/
def other2C6 : Url := { scheme := "http", netloc := "srv", path := "/path/pkg.tgz" }

/-- Witness for the amended claim C6 at the spec's own scenario URLs. -/
theorem claimC6_amended_witness :
    update_url_credentials base1C6 other1C6 = other1C6 ∧
    (update_url_credentials base2C6 other2C6).netloc = base2C6.netloc :=
  ⟨(claimC6_amended base1C6 other1C6).1 (by decide),
   ((claimC6_amended base2C6 other2C6).2 (by decide) (by decide)).2.2.2.2.2⟩

/-- Claim C7: for a filed requirement, `set_data` succeeds exactly when the
slot is unset; after a successful write of `v1`, a second write fails with
the data-slot-in-use `ValueError` and the slot still holds `v1`. -/
theorem claimC7_set_data_write_once (m : Maestro) (r : String) (f : Field) (v1 v2 : String)
    (hfiled : (m.mapping.lookup (format_requirement r)).isSome) :
    ((∃ m', set_data m r f v1 = .ok m') ↔ get_data m r f = .ok none) ∧
    ∀ m', set_data m r f v1 = .ok m' →
      get_data m' r f = .ok (some v1) ∧
      ∃ msg, set_data m' r f v2 = .error (.valueError msg) := by
  obtain ⟨e, he⟩ := Option.isSome_iff_exists.mp hfiled
  constructor
  · constructor
    · rintro ⟨m', hm'⟩
      simp only [set_data, he] at hm'
      cases hslot : e.data.get f with
      | none => simp [get_data, he, hslot]
      | some w => rw [hslot] at hm'; cases hm'
    · intro hget
      simp only [get_data, he, Except.ok.injEq] at hget
      exact ⟨{ mapping := updateEntry (format_requirement r)
                (fun e' => { e' with data := e'.data.set f (some v1) }) m.mapping },
        by simp [set_data, he, hget]⟩
  · intro m' hm'
    simp only [set_data, he] at hm'
    cases hslot : e.data.get f with
    | some w => rw [hslot] at hm'; cases hm'
    | none =>
      rw [hslot] at hm'
      injection hm' with hm'
      subst hm'
      constructor
      · simp [get_data, lookup_updateEntry_self, he, DataSlots.get_set_same]
      · exact ⟨"Data field `" ++ fieldName f ++ "` is not empty for the requirement \""
            ++ format_requirement r ++ "\"",
          by simp [set_data, lookup_updateEntry_self, he, DataSlots.get_set_same]⟩

/-- A registry with a single filed requirement whose slots are all unset. -/
def mC7 : Maestro := { mapping := [("pkg (1.0)", { status := 0, dependency_of := [none], data := {} })] }

/-- The registry `mC7` after `set_data` stored `V1` in the `url` slot. -/
def mC7b : Maestro :=
  { mapping := [("pkg (1.0)", { status := 0, dependency_of := [none], data := { url := some "V1" } })] }

/-- Witness for claim C7: a concrete first write succeeds, the slot then
holds `V1`, and the second write fails. -/
theorem claimC7_witness :
    set_data mC7 "pkg (1.0)" Field.url "V1" = .ok mC7b ∧
    get_data mC7b "pkg (1.0)" Field.url = .ok (some "V1") ∧
    ∃ msg, set_data mC7b "pkg (1.0)" Field.url "V2" = .error (.valueError msg) := by
  have h := (claimC7_set_data_write_once mC7 "pkg (1.0)" Field.url "V1" "V2"
      (by decide)).2 mC7b (by decide)
  exact ⟨by decide, h.1, h.2⟩

/-- The distribution of the C8 counterexample: a plain archive URL. -/
def distC8 : Distribution := { download_url := "http://blah/package.tar.gz" }

/-- A 200 response with no `Content-Disposition` header. -/
def respC8 : HttpResponse := { status := 200, headers := [], body := "BYTES" }

/-- Claim C8 (counterexample): with no `Content-Disposition` header the
claim demands the basename `package.tar.gz` be submitted to the index; the
code submits the whole original URL. -/
theorem claimC8_counterexample :
    download distC8 respC8 = .ok (distC8.download_url, "BYTES") ∧
    basename distC8.download_url = "package.tar.gz" ∧
    distC8.download_url ≠ "package.tar.gz" := by
  exact ⟨by decide, by decide, by decide⟩

theorem scanFilename_ne_nil : ∀ (l cs : List Char), scanFilename l = some cs → cs ≠ []
  | [], _, h => by cases h
  | c :: rest, cs, h => by
    simp only [scanFilename] at h
    by_cases hp : List.isPrefixOf "filename=".data (c :: rest)
    · rw [if_pos hp] at h
      by_cases hcap : (((c :: rest).drop 9).takeWhile (fun ch => ch ≠ ';')).isEmpty = true
      · rw [if_pos hcap] at h
        exact scanFilename_ne_nil rest cs h
      · rw [if_neg hcap] at h
        injection h with h
        subst h
        intro hnil
        rw [hnil] at hcap
        exact hcap rfl
    · rw [if_neg hp] at h
      exact scanFilename_ne_nil rest cs h

theorem firstFilename_ne_empty (s f : String) (h : firstFilename s = some f) : f ≠ "" := by
  unfold firstFilename at h
  cases hs : scanFilename s.data with
  | none => rw [hs] at h; cases h
  | some cs =>
    rw [hs] at h
    injection h with h
    subst h
    intro hf
    exact scanFilename_ne_nil s.data cs hs (congrArg String.data hf)

/-- Claim C8 (amended): on a 200 response the name submitted together with
the body is the first `filename=` capture of the `Content-Disposition`
header — up to the next `;`, quotes retained — when one exists, and the
full originally requested URL otherwise; the post-redirect URL plays no
part, since the source discards the redirect location. -/
theorem claimC8_amended (d : Distribution) (r : HttpResponse) (h : r.status = 200) :
    download d r = .ok (amendedName d r, r.body) := by
  have hcond : ¬(r.status ≠ 200) := fun hne => hne h
  simp only [download, if_neg hcond, amendedName]
  generalize hX : firstFilename (headersGet r.headers "content-disposition" "") = o
  cases o with
  | none => rfl
  | some f =>
    have hne := firstFilename_ne_empty _ f hX
    show Except.ok (if f = "" then d.download_url else f, r.body) = _
    rw [if_neg hne]

/-- The distribution of the C8 witness. -/
def distC8w : Distribution := { download_url := "http://blah/x.tgz" }

/-- A 200 response carrying a quoted `Content-Disposition` filename. -/
def respC8w : HttpResponse :=
  { status := 200,
    headers := [("content-disposition", "attachment; filename=\"sure-0.1.1.tar.gz\"")],
    body := "B" }

/-- Witness for the amended claim C8: the quoted filename is submitted with
its quotes retained. -/
theorem claimC8_amended_witness :
    download distC8w respC8w = .ok (amendedName distC8w respC8w, "B") ∧
    amendedName distC8w respC8w = "\"sure-0.1.1.tar.gz\"" :=
  ⟨claimC8_amended distC8w respC8w rfl, by decide⟩

/-- Claim C9: two requirement strings with the same canonical form collide
in the registry: filing both (starting from a registry where the canonical
key is absent) yields one entry, keyed by the canonical form, whose
back-link list holds the two appended parents; the registry grows by
exactly one entry. -/
theorem claimC9_file_requirement_merges (m : Maestro) (s1 s2 : String) (p1 p2 : Option String)
    (hc : format_requirement s1 = format_requirement s2)
    (habsent : m.mapping.lookup (format_requirement s1) = none) :
    (file_requirement (file_requirement m s1 p1) s2 p2).mapping.lookup (format_requirement s1)
        = some { status := 0, dependency_of := [p1, p2], data := {} } ∧
    (file_requirement (file_requirement m s1 p1) s2 p2).mapping.length
        = m.mapping.length + 1 := by
  have hlook : (file_requirement m s1 p1).mapping.lookup (format_requirement s2)
      = some { status := 0, dependency_of := [p1], data := {} } := by
    rw [file_requirement_absent p1 habsent, ← hc, lookup_append_of_none habsent]
    simp [List.lookup]
  constructor
  · rw [file_requirement_present p2 hlook, hc, lookup_updateEntry_self, hlook]
    rfl
  · rw [file_requirement_present p2 hlook, updateEntry_length,
      file_requirement_absent p1 habsent]
    simp

/-- Witness for claim C9: `foo (== 1.0)` and `foo (1.0)` canonicalize
identically (the `== ` prefix is dropped) and merge into one entry with
back-links from both filings. -/
theorem claimC9_witness :
    (file_requirement (file_requirement (⟨[]⟩ : Maestro) "foo (== 1.0)" none)
        "foo (1.0)" (some "dad (1.0)")).mapping.lookup (format_requirement "foo (== 1.0)")
      = some { status := 0, dependency_of := [none, some "dad (1.0)"], data := {} } ∧
    (file_requirement (file_requirement (⟨[]⟩ : Maestro) "foo (== 1.0)" none)
        "foo (1.0)" (some "dad (1.0)")).mapping.length
      = (⟨[]⟩ : Maestro).mapping.length + 1 :=
  claimC9_file_requirement_merges ⟨[]⟩ "foo (== 1.0)" "foo (1.0)" none (some "dad (1.0)")
    (by decide) (by decide)

/-- Claim C10: `broken_versions` never consults a per-version record — if
the requirement's own `exception` slot is set it returns the entire
`available_versions` list of the package, and the empty list otherwise. -/
theorem claimC10_broken_versions_all_or_nothing (m : Maestro) (r : String) (e : Entry)
    (vs : List String)
    (hfiled : m.mapping.lookup (format_requirement r) = some e)
    (hav : available_versions m (parse_requirement r).name = .ok vs) :
    broken_versions m r = .ok (if (e.data.get Field.exception).isSome then vs else []) := by
  have hget : get_data m r Field.exception = .ok (e.data.get Field.exception) := by
    simp [get_data, hfiled]
  have hfilter : ∀ l : List String,
      brokenFilter m r l = .ok (if (e.data.get Field.exception).isSome then l else []) := by
    intro l
    induction l with
    | nil => cases h : (e.data.get Field.exception).isSome <;> simp [brokenFilter, h]
    | cons v rest ih =>
      simp only [brokenFilter, hget, ih]
      cases h : (e.data.get Field.exception).isSome <;> simp [h]
  simp only [broken_versions, hav, hfilter]

/-- An entry whose `exception` slot is set and whose wheel is recorded. -/
def entC10 : Entry :=
  { status := 0, dependency_of := [none], data := { wheel := some "w-1.0-py2-none-any.whl", exception := some "boom" } }

/-- A registry with one requirement whose `exception` slot is set. -/
def mC10 : Maestro :=
  { mapping := [("w (1.0)", entC10)] }

/-- Witness for claim C10: with the `exception` slot set, every available
version is reported broken. -/
theorem claimC10_witness : broken_versions mC10 "w (1.0)" = .ok ["1.0"] := by
  have h := claimC10_broken_versions_all_or_nothing mC10 "w (1.0)" entC10
    ["1.0"] (by decide) (by decide)
  simpa using h

/-- Discriminate the `VersionConflict` outcome of an embedded call, used to
state that a raised exception is not the claimed one. -/
def isVersionConflict : Except Err (String × String) → Bool
  | .error (.versionConflict _) => true
  | _ => false

/-- The constrained entry `baz (< 1.0)` of the conflict scenario, holding
the wheel `baz-0.9-py2-none-any.whl`. -/
def entC3a : Entry :=
  { status := 0, dependency_of := [some "parent (1.0)"], data := { wheel := some "baz-0.9-py2-none-any.whl" } }

/-- The constrained entry `baz (>= 2.0)` of the conflict scenario, holding
the wheel `baz-2.0-py2-none-any.whl`. -/
def entC3b : Entry :=
  { status := 0, dependency_of := [some "parent (1.0)"], data := { wheel := some "baz-2.0-py2-none-any.whl" } }

/-- The bare requirement `baz` of the C3 counterexample: constraint-less
(so `list_constraints` is `None`), non-primary, wheel version `1.5`. -/
def entC3bare : Entry :=
  { status := 0, dependency_of := [some "parent (1.0)"], data := { wheel := some "baz-1.5-py2-none-any.whl" } }

/-- The registry of the C3 counterexample: the conflict scenario extended
with the constraint-less filing `baz`.  All three requirements are
non-primary, the matching lists exist, and no version is common to all
three. -/
def mC3cx : Maestro :=
  { mapping := [("baz", entC3bare), ("baz (< 1.0)", entC3a), ("baz (>= 2.0)", entC3b)] }

/-- Claim C3 (counterexample): the registry `mC3cx` satisfies every premise
of the claim — `baz` has three filed requirements, none primary, their
matching-version lists exist, and no version appears in all three (the
code's own compatibility filter over the concatenated lists is empty) —
yet `best_version` raises `TypeError`, not the claimed `VersionConflict`:
the constraint-less filing `baz` makes `list_constraints` return `None`,
and `', '.join(all_constraints)` at maestro.py:176 blows up before the
`VersionConflict` is constructed. -/
theorem claimC3_counterexample :
    get_requirements_by_package_name mC3cx "baz" = ["baz", "baz (< 1.0)", "baz (>= 2.0)"] ∧
    is_primary_requirement mC3cx "baz" = .ok false ∧
    is_primary_requirement mC3cx "baz (< 1.0)" = .ok false ∧
    is_primary_requirement mC3cx "baz (>= 2.0)" = .ok false ∧
    matching_versions mC3cx "baz" = .ok ["2.0", "1.5", "0.9"] ∧
    matching_versions mC3cx "baz (< 1.0)" = .ok ["0.9"] ∧
    matching_versions mC3cx "baz (>= 2.0)" = .ok ["2.0"] ∧
    compatibleVersions (["2.0", "1.5", "0.9"] ++ ["0.9"] ++ ["2.0"]) 3 = [] ∧
    best_version mC3cx "baz" = .error .typeError ∧
    isVersionConflict (best_version mC3cx "baz") = false := by
  exact ⟨by decide, by decide, by decide, by decide, by decide, by decide, by decide,
    by decide, by decide, by decide⟩

/-- Claim C3 (amended): when a package has at least one filed requirement,
none of them primary, no version is common to every requirement's
matching-version list, and — as the counterexample forces — every filed
requirement of the package carries at least one constraint (`hjoin`: the
join of the constraint strings succeeds instead of raising `TypeError` on a
`None`), `best_version` raises `VersionConflict`; the message carries the
package name, the constraint list of every filed requirement of the
package, and every available version.  The hypotheses `hg`, `hM` and `hav`
express that the gathering pass, the matching lists and the
available-version list are defined (no requirement is missing a wheel),
which the claim presupposes by speaking of those lists.  `best_version` is
a pure function of the registry, so the registry is trivially unchanged by
the failed call. -/
theorem claimC3_version_conflict
    (m : Maestro) (rname : String) (M : String → List String) (g : Gather)
    (cl : List String) (avail : List String)
    (h1 : get_requirements_by_package_name m (parse_requirement rname).name ≠ [])
    (hnp : ∀ r ∈ get_requirements_by_package_name m (parse_requirement rname).name,
      is_primary_requirement m r = .ok false)
    (hM : ∀ r ∈ get_requirements_by_package_name m (parse_requirement rname).name,
      matching_versions m r = .ok (M r))
    (hg : gather m (get_requirements_by_package_name m (parse_requirement rname).name) {} = .ok g)
    (hnc : ∀ v ∈ g.all_versions,
      ∃ r ∈ get_requirements_by_package_name m (parse_requirement rname).name, v ∉ M r)
    (hjoin : seqOpts g.all_constraints = .ok cl)
    (hav : available_versions m (parse_requirement rname).name = .ok avail) :
    best_version m rname = .error (.versionConflict
      (conflictMessage (parse_requirement rname).name (commaJoin cl) (commaJoin avail))) ∧
    StrContains (conflictMessage (parse_requirement rname).name (commaJoin cl) (commaJoin avail))
      (parse_requirement rname).name ∧
    (∀ r ∈ get_requirements_by_package_name m (parse_requirement rname).name,
      ∀ c, list_constraints (parse_requirement r) = some c →
        StrContains
          (conflictMessage (parse_requirement rname).name (commaJoin cl) (commaJoin avail)) c) ∧
    (∀ v ∈ avail,
      StrContains
        (conflictMessage (parse_requirement rname).name (commaJoin cl) (commaJoin avail)) v) := by
  obtain ⟨hprim, hall, hcons⟩ := gather_ok_spec m M _ {} g hg hnp hM
  have hprim' : g.primary_versions = [] := by simpa using hprim
  have hall' : g.all_versions
      = (get_requirements_by_package_name m (parse_requirement rname).name).flatMap M := by
    simpa using hall
  have hcons' : g.all_constraints
      = (get_requirements_by_package_name m (parse_requirement rname).name).map
          fun r => list_constraints (parse_requirement r) := by
    simpa using hcons
  have hcompat : compatibleVersions g.all_versions
      (get_requirements_by_package_name m (parse_requirement rname).name).length = [] := by
    apply List.filter_eq_nil_iff.mpr
    intro v hv
    obtain ⟨r₀, hr₀, hnot⟩ := hnc v hv
    have hbound : g.all_versions.count v
        < (get_requirements_by_package_name m (parse_requirement rname).name).length := by
      rw [hall', List.count_flatMap]
      exact map_sum_lt_length _ _
        (fun r hr => List.nodup_iff_count_le_one.mp (matching_versions_nodup (hM r hr)) v)
        r₀ hr₀ (List.count_eq_zero.mpr hnot)
    simp only [beq_iff_eq]
    omega
  refine ⟨?_, ?_, ?_, ?_⟩
  · simp only [best_version, hg, hprim', hcompat, hjoin, hav, List.isEmpty_nil, if_true]
  · exact ((((((StrContains.refl _).appL "Requirement: ").appR " (").appR
      (commaJoin cl)).appR "), Available versions: ").appR (commaJoin avail))
  · intro r hr c hc
    have hmemc : some c ∈ g.all_constraints := by
      rw [hcons']
      exact List.mem_map.mpr ⟨r, hr, by rw [hc]⟩
    exact (((commaJoin_contains (seqOpts_mem hjoin hmemc)).appL
      ("Requirement: " ++ (parse_requirement rname).name ++ " (")).appR
      "), Available versions: ").appR (commaJoin avail)
  · intro v hv
    exact (commaJoin_contains hv).appL
      ("Requirement: " ++ (parse_requirement rname).name ++ " (" ++ commaJoin cl
        ++ "), Available versions: ")

/-- The registry of the conflict scenario: `baz (< 1.0)` and `baz (>= 2.0)`
filed as dependencies, with available versions `0.9` and `2.0`. -/
def mC3 : Maestro :=
  { mapping := [("baz (< 1.0)", entC3a), ("baz (>= 2.0)", entC3b)] }

/-- The matching-version lists of the conflict scenario. -/
def MC3 : String → List String :=
  fun r => if r = "baz (< 1.0)" then ["0.9"] else ["2.0"]

/-- The state of the gathering loop of `best_version` on `mC3`. -/
def gC3 : Gather :=
  { primary_versions := [],
    all_versions := ["0.9", "2.0"],
    rbv := [("0.9", "baz (< 1.0)"), ("2.0", "baz (>= 2.0)")],
    all_constraints := [some "< 1.0", some ">= 2.0"] }

/-- Witness for claim C3 at the spec's conflict scenario: `best_version`
raises `VersionConflict` and the message carries the constraint `< 1.0`. -/
theorem claimC3_witness :
    best_version mC3 "baz" = .error (.versionConflict
      (conflictMessage "baz" (commaJoin ["< 1.0", ">= 2.0"]) (commaJoin ["2.0", "0.9"]))) ∧
    StrContains
      (conflictMessage "baz" (commaJoin ["< 1.0", ">= 2.0"]) (commaJoin ["2.0", "0.9"]))
      "< 1.0" := by
  have h := claimC3_version_conflict mC3 "baz" MC3 gC3 ["< 1.0", ">= 2.0"] ["2.0", "0.9"]
    (by decide) (by decide) (by decide) (by decide) (by decide) (by decide) (by decide)
  exact ⟨h.1, h.2.2.1 "baz (< 1.0)" (by decide) "< 1.0" (by decide)⟩

end Curdling
